import Mathlib

/-!
Verification of the consensus-configuration subsystem of oursql
(node/consensus/config.go): data model, loading with default
back-filling, default construction, export with address and name
override merging, random bootstrap-address selection, and persistence.

The proof-of-work settings shape (ProofOfWorkSettings, its
completeSettings method, mapstructure.Decode, structs.Map) and the
peer-address parser (net.NodeAddr.LoadFromString) live outside the
excerpt; they are treated as parameters (sdecode, scomplete, sencode,
parseAddr), matching how the spec scopes SettingsCompleter and address
parsing as external capabilities.  Machine float64 fields only ever meet
the constants 0 and 10 and equality tests, so they are modelled by Rat.
File I/O is modelled explicitly: reads enter as an already-obtained
Except value and writes leave as path-and-contents pairs, so that
performing no write is visible in the types.
-/

namespace OurSQL

/-- Constant `KindConseususPoW` from the source (the typo is the
source typo). -/
def KindConseususPoW : String := "proofofwork"

/-- Go struct `ConsensusConfigCost`: five float64 cost weights. -/
structure ConsensusConfigCost where
  Default : Rat
  RowDelete : Rat
  RowUpdate : Rat
  RowInsert : Rat
  TableCreate : Rat
deriving DecidableEq

/-- Go struct `ConsensusConfigTable`: a per-table permission and cost
override rule. -/
structure ConsensusConfigTable where
  Table : String
  AllowRowDelete : Bool
  AllowRowUpdate : Bool
  AllowRowInsert : Bool
  AllowTableCreate : Bool
  TransactionCost : ConsensusConfigCost
deriving DecidableEq

/-- Go struct `ConsensusConfigApplication`: the application descriptor. -/
structure ConsensusConfigApplication where
  Name : String
  WebSite : String
  Team : String
deriving DecidableEq

/-- Go struct `consensusConfigState`: unexported lifecycle state, never
serialized. -/
structure ConsensusConfigState where
  isDefault : Bool
  filePath : String
deriving DecidableEq

/-- Go struct `ConsensusConfig`.  The parameter `SMap` stands for the
opaque Go settings mapping from string keys to arbitrary values. -/
structure ConsensusConfig (SMap : Type) where
  Application : ConsensusConfigApplication
  Kind : String
  CoinsForBlockMade : Rat
  Settings : SMap
  AllowTableCreate : Bool
  AllowTableDrop : Bool
  AllowRowDelete : Bool
  TransactionCost : ConsensusConfigCost
  UnmanagedTables : List String
  TableRules : List ConsensusConfigTable
  InitNodesAddreses : List String
  state : ConsensusConfigState
deriving DecidableEq

/-- Serialized document: exactly the exported (public) fields of
`ConsensusConfig`, as produced by `json.Marshal` — the unexported
`state` field is not serialized.  `json.Marshal` is injective on these
fields, so the document is modelled by the field record itself;
semantic identity of documents is equality of this record. -/
structure ConsensusDoc (SMap : Type) where
  Application : ConsensusConfigApplication
  Kind : String
  CoinsForBlockMade : Rat
  Settings : SMap
  AllowTableCreate : Bool
  AllowTableDrop : Bool
  AllowRowDelete : Bool
  TransactionCost : ConsensusConfigCost
  UnmanagedTables : List String
  TableRules : List ConsensusConfigTable
  InitNodesAddreses : List String
deriving DecidableEq

/-- Model of `json.Marshal` on a `ConsensusConfig`: keep the public
fields. -/
def marshal {SMap : Type} (cc : ConsensusConfig SMap) : ConsensusDoc SMap :=
  { Application := cc.Application
    Kind := cc.Kind
    CoinsForBlockMade := cc.CoinsForBlockMade
    Settings := cc.Settings
    AllowTableCreate := cc.AllowTableCreate
    AllowTableDrop := cc.AllowTableDrop
    AllowRowDelete := cc.AllowRowDelete
    TransactionCost := cc.TransactionCost
    UnmanagedTables := cc.UnmanagedTables
    TableRules := cc.TableRules
    InitNodesAddreses := cc.InitNodesAddreses }

/-- Model of `json.Unmarshal` into a fresh `ConsensusConfig` zero value:
public fields from the document, lifecycle state at its Go zero value. -/
def unmarshalDoc {SMap : Type} (d : ConsensusDoc SMap) : ConsensusConfig SMap :=
  { Application := d.Application
    Kind := d.Kind
    CoinsForBlockMade := d.CoinsForBlockMade
    Settings := d.Settings
    AllowTableCreate := d.AllowTableCreate
    AllowTableDrop := d.AllowTableDrop
    AllowRowDelete := d.AllowRowDelete
    TransactionCost := d.TransactionCost
    UnmanagedTables := d.UnmanagedTables
    TableRules := d.TableRules
    InitNodesAddreses := d.InitNodesAddreses
    state := { isDefault := false, filePath := "" } }

/-- Error values returned by the subsystem (errors.New in the source),
sorted into the error kinds of the spec: validation errors from
`Export`, the configuration error from `UpdateConfig`, and read or parse
failures surfaced by `NewConfigFromFile`. -/
inductive ConfigErr where
  | validationError (msg : String)
  | configurationError (msg : String)
  | loadError (msg : String)
deriving DecidableEq

/-- Equality of `Except` results is decidable when both sides are. -/
instance {ε α : Type} [DecidableEq ε] [DecidableEq α] :
    DecidableEq (Except ε α) := fun x y =>
  match x, y with
  | .ok a, .ok b =>
    if h : a = b then isTrue (by rw [h])
    else isFalse fun c => h (Except.ok.inj c)
  | .error a, .error b =>
    if h : a = b then isTrue (by rw [h])
    else isFalse fun c => h (Except.error.inj c)
  | .ok _, .error _ => isFalse fun c => Except.noConfusion c
  | .error _, .ok _ => isFalse fun c => Except.noConfusion c

/-- Helper for `splitComma`: split a character list at every comma. -/
def splitCommaAux : List Char → List (List Char)
  | [] => [[]]
  | c :: rest =>
    if c = ',' then [] :: splitCommaAux rest
    else match splitCommaAux rest with
      | [] => [[c]]
      | t :: ts => (c :: t) :: ts

/-- Model of `strings.Split(s, ",")`: the substrings between commas, in
order, one more substring than commas (so the empty string gives a
single empty entry and a lone comma gives two).  Defined structurally on
the character list so it evaluates by kernel reduction. -/
def splitComma (s : String) : List String :=
  (splitCommaAux s.data).map fun l => ⟨l⟩

/-- Loop over the override entries inside `Export`: skip empty entries,
and for the literal entry own substitute thisnodeaddr when it is
non-empty, dropping the entry otherwise; every surviving entry is
appended in order. -/
def parseAddressList (list : List String) (thisnodeaddr : String) : List String :=
  match list with
  | [] => []
  | a :: rest =>
    if a = "" then parseAddressList rest thisnodeaddr
    else if a = "own" then
      if thisnodeaddr ≠ "" then thisnodeaddr :: parseAddressList rest thisnodeaddr
      else parseAddressList rest thisnodeaddr
    else a :: parseAddressList rest thisnodeaddr

/-- Address-list computation of `Export` (source lines 146 to 172):
parse the comma-separated override string (only when non-empty), replace
the existing list when the parsed list is non-empty, then fall back to
the singleton list of thisnodeaddr when the list is still empty and
thisnodeaddr is not. -/
def exportEffectiveAddresses (init : List String)
    (defaultaddresses thisnodeaddr : String) : List String :=
  let addresses :=
    if defaultaddresses ≠ "" then
      parseAddressList (splitComma defaultaddresses) thisnodeaddr
    else []
  let cur := if addresses.length > 0 then addresses else init
  if cur.length = 0 ∧ thisnodeaddr ≠ "" then [thisnodeaddr] else cur

/-- Spec-side restatement of the address resolution, written from the
words of claim C1: split on commas, skip empty entries, replace own by
selfAddress when non-empty and drop it otherwise; a non-empty result
replaces the existing list; if the list is then still empty while
selfAddress is non-empty it becomes the singleton of selfAddress.  Used
only to be compared with `exportEffectiveAddresses`. -/
def specEffectiveAddresses (existing : List String)
    (overrides selfAddress : String) : List String :=
  let parsed := (splitComma overrides).filterMap fun a =>
    if a = "" then none
    else if a = "own" then (if selfAddress ≠ "" then some selfAddress else none)
    else some a
  let replaced := if parsed ≠ [] then parsed else existing
  if replaced = [] ∧ selfAddress ≠ "" then [selfAddress] else replaced

/-- Function `Export` (source lines 145 to 191): merge overrides into a
copy of the receiver, validate, serialize. -/
def Export {SMap : Type} (cc : ConsensusConfig SMap)
    (defaultaddresses appname thisnodeaddr : String) :
    Except ConfigErr (ConsensusDoc SMap) :=
  let cc := { cc with InitNodesAddreses :=
      exportEffectiveAddresses cc.InitNodesAddreses defaultaddresses thisnodeaddr }
  if cc.InitNodesAddreses.length = 0 then
    .error (.validationError "List of default addresses is empty")
  else
    let cc := if appname ≠ "" then
        { cc with Application := { cc.Application with Name := appname } }
      else cc
    if cc.Application.Name = "" then
      .error (.validationError "Application name is empty. It is required")
    else .ok (marshal cc)

/-- Call of the method `Export` at a call site: Go passes the receiver by
value and the body writes only to that copy (field assignments and
re-bindings of the slice header; no write through a shared pointer or
into the elements of a shared slice), so the caller keeps its
configuration.  The pair is (returned value, configuration of the caller
after the call). -/
def ExportCall {SMap : Type} (cc : ConsensusConfig SMap)
    (defaultaddresses appname thisnodeaddr : String) :
    Except ConfigErr (ConsensusDoc SMap) × ConsensusConfig SMap :=
  (Export cc defaultaddresses appname thisnodeaddr, cc)

/-- Function `ExportToFile` (source lines 131 to 142): serialize via
`Export`, then write the bytes.  A successful call yields the single
write it performs. -/
def ExportToFile {SMap : Type} (cc : ConsensusConfig SMap) (filepath : String)
    (defaultaddresses appname thisnodeaddr : String) :
    Except ConfigErr (String × ConsensusDoc SMap) :=
  match Export cc defaultaddresses appname thisnodeaddr with
  | .error e => .error e
  | .ok jsondata => .ok (filepath, jsondata)

/-- Function `NewConfigFromFile` (source lines 62 to 102).  The file
read and JSON parse enter as readResult (the raw bytes are outside the
model); sdecode, scomplete and sencode stand for mapstructure.Decode,
the external completeSettings, and structs.Map.  The second component is
the list of file writes the call performs: always empty — load never
writes back. -/
def NewConfigFromFile {SMap PoW : Type} (sdecode : SMap → PoW)
    (scomplete : PoW → PoW) (sencode : PoW → SMap)
    (readResult : Except String (ConsensusDoc SMap)) (filepath : String) :
    Except ConfigErr (ConsensusConfig SMap) × List (String × String) :=
  match readResult with
  | .error e => (.error (.loadError e), [])
  | .ok doc =>
    let config := unmarshalDoc doc
    let config := if config.CoinsForBlockMade = 0 then
        { config with CoinsForBlockMade := 10 } else config
    let config := if config.Kind = "" then
        { config with Kind := KindConseususPoW } else config
    let config := if config.Kind = KindConseususPoW then
        { config with Settings := sencode (scomplete (sdecode config.Settings)) }
      else config
    let config := { config with state :=
        { isDefault := false, filePath := filepath } }
    (.ok config, [])

/-- Function `NewConfigDefault` (source lines 104 to 125).  Here
emptyPoW stands for the Go zero value of ProofOfWorkSettings.  The error
result of the Go function is always nil, so the model returns the
configuration directly; it is pure — no filesystem access appears in its
type. -/
def NewConfigDefault {SMap PoW : Type} (scomplete : PoW → PoW)
    (sencode : PoW → SMap) (emptyPoW : PoW) : ConsensusConfig SMap :=
  { Application := { Name := "", WebSite := "", Team := "" }
    Kind := KindConseususPoW
    CoinsForBlockMade := 10
    Settings := sencode (scomplete emptyPoW)
    AllowTableCreate := true
    AllowTableDrop := true
    AllowRowDelete := true
    TransactionCost := { Default := 0, RowDelete := 0, RowUpdate := 0,
                         RowInsert := 0, TableCreate := 0 }
    UnmanagedTables := []
    TableRules := []
    InitNodesAddreses := []
    state := { isDefault := true, filePath := "" } }

/-- Function `IsDefault` (source lines 208 to 211). -/
def IsDefault {SMap : Type} (cc : ConsensusConfig SMap) : Bool :=
  cc.state.isDefault

/-- Function `SetConfigFilePath` (source lines 214 to 216): pointer
receiver, overwrites only the lifecycle file path. -/
def SetConfigFilePath {SMap : Type} (cc : ConsensusConfig SMap)
    (fp : String) : ConsensusConfig SMap :=
  { cc with state := { cc.state with filePath := fp } }

/-- Function `UpdateConfig` (source lines 220 to 226): refuse when no
file path is set, otherwise write the raw bytes (of arbitrary type β;
they are not parsed or validated) to the configured path.  A successful
call returns the single write it performs; the error case performs
none. -/
def UpdateConfig {SMap β : Type} (cc : ConsensusConfig SMap) (jsondoc : β) :
    Except ConfigErr (String × β) :=
  if cc.state.filePath = "" then
    .error (.configurationError "COnfig file path missed. Can not save")
  else .ok (cc.state.filePath, jsondoc)

/-- Effect of one file write on a filesystem modelled as a partial map
from paths to contents. -/
def applyWrite {β : Type} (fs : String → Option β) (w : String × β) :
    String → Option β :=
  fun p => if p = w.1 then some w.2 else fs p

/-- Deterministic state of the process-wide math/rand generator: seed
models rand.Seed(t) — the state after seeding is a function of t alone —
and intn models rand.Intn(n) for positive n, yielding an in-range index
plus the successor state. -/
structure RandGen (σ : Type) where
  seed : Int → σ
  intn : σ → (n : Nat) → 0 < n → Fin n × σ

/-- Function `GetRandomInitialAddress` (source lines 194 to 205).  Here
now is time.Now().Unix() in whole seconds; st is the global generator
state before the call; parseAddr stands for net.NodeAddr.LoadFromString.
Returns the possibly-nil structured address (nil modelled as none) and
the global generator state after the call.  The empty-list early return
happens before any seeding, so the state is then unchanged. -/
def GetRandomInitialAddress {SMap σ α : Type} (g : RandGen σ)
    (parseAddr : String → α) (now : Int) (st : σ)
    (cc : ConsensusConfig SMap) : Option α × σ :=
  if h : cc.InitNodesAddreses.length = 0 then (none, st)
  else
    let st1 := g.seed now
    let r := g.intn st1 cc.InitNodesAddreses.length (Nat.pos_of_ne_zero h)
    (some (parseAddr (cc.InitNodesAddreses.get r.1)), r.2)

/-- Loaded-style configuration with application name MyChain and no
bootstrap addresses, over trivial settings. -/
def cfgMyChain : ConsensusConfig Unit :=
  { Application := { Name := "MyChain", WebSite := "", Team := "" }
    Kind := "proofofwork"
    CoinsForBlockMade := 10
    Settings := ()
    AllowTableCreate := true
    AllowTableDrop := true
    AllowRowDelete := true
    TransactionCost := { Default := 0, RowDelete := 0, RowUpdate := 0,
                         RowInsert := 0, TableCreate := 0 }
    UnmanagedTables := []
    TableRules := []
    InitNodesAddreses := []
    state := { isDefault := false, filePath := "" } }

/-- Document produced by `Export` from `cfgMyChain` with the example
overrides of claim C1. -/
def docMyChain : ConsensusDoc Unit :=
  { Application := { Name := "MyChain", WebSite := "", Team := "" }
    Kind := "proofofwork"
    CoinsForBlockMade := 10
    Settings := ()
    AllowTableCreate := true
    AllowTableDrop := true
    AllowRowDelete := true
    TransactionCost := { Default := 0, RowDelete := 0, RowUpdate := 0,
                         RowInsert := 0, TableCreate := 0 }
    UnmanagedTables := []
    TableRules := []
    InitNodesAddreses := ["203.0.113.5:9000", "192.0.2.1:9000"] }

/-- Fully-empty configuration (Go zero value) over trivial settings. -/
def cfgEmptyU : ConsensusConfig Unit :=
  { Application := { Name := "", WebSite := "", Team := "" }
    Kind := ""
    CoinsForBlockMade := 0
    Settings := ()
    AllowTableCreate := false
    AllowTableDrop := false
    AllowRowDelete := false
    TransactionCost := { Default := 0, RowDelete := 0, RowUpdate := 0,
                         RowInsert := 0, TableCreate := 0 }
    UnmanagedTables := []
    TableRules := []
    InitNodesAddreses := []
    state := { isDefault := false, filePath := "" } }

/-- Like `cfgEmptyU` but with one bootstrap address and no application
name. -/
def cfgNoNameU : ConsensusConfig Unit :=
  { cfgEmptyU with InitNodesAddreses := ["192.0.2.7:9000"] }

/-- The value of `cfgEmptyU` after a successful load from path a.json. -/
def cfgLoadedU : ConsensusConfig Unit :=
  { cfgEmptyU with CoinsForBlockMade := 10, Kind := "proofofwork",
                   state := { isDefault := false, filePath := "a.json" } }

/-- Loadable configuration with one bootstrap address. -/
def cfgRoundU : ConsensusConfig Unit :=
  { cfgMyChain with InitNodesAddreses := ["192.0.2.9:9000"] }

/-- The value of `cfgRoundU` as reloaded from path config.json. -/
def cfgRoundLoadedU : ConsensusConfig Unit :=
  { cfgRoundU with state := { isDefault := false, filePath := "config.json" } }

/-- Like `cfgRoundU` but with a zero block reward. -/
def cfgZeroRewardU : ConsensusConfig Unit :=
  { cfgRoundU with CoinsForBlockMade := 0 }

/-- The value of `cfgZeroRewardU` as reloaded: the zero reward was
back-filled to 10. -/
def cfgZeroReloadedU : ConsensusConfig Unit :=
  { cfgZeroRewardU with CoinsForBlockMade := 10,
                        state := { isDefault := false, filePath := "config.json" } }

/-- Trivial deterministic generator used to instantiate witnesses. -/
def gUnit : RandGen Unit :=
  { seed := fun _ => (), intn := fun _ n h => (⟨0, h⟩, ()) }

lemma parseAddressList_eq_filterMap (l : List String) (tna : String) :
    parseAddressList l tna = l.filterMap fun a =>
      if a = "" then none
      else if a = "own" then (if tna ≠ "" then some tna else none)
      else some a := by
  induction l with
  | nil => simp [parseAddressList]
  | cons a rest ih =>
    simp only [parseAddressList, List.filterMap_cons, ih]
    by_cases h1 : a = "" <;> by_cases h2 : a = "own" <;>
      by_cases h3 : tna = "" <;> simp [h1, h2, h3]

lemma ite_length_pos_eq (l init : List String) :
    (if l.length > 0 then l else init) = (if l ≠ [] then l else init) := by
  cases l <;> simp

lemma ite_length_zero_eq (cur : List String) (s : String) :
    (if cur.length = 0 ∧ s ≠ "" then [s] else cur)
      = (if cur = [] ∧ s ≠ "" then [s] else cur) := by
  cases cur <;> simp

lemma effectiveAddresses_eq (init : List String) (o s : String) :
    exportEffectiveAddresses init o s = specEffectiveAddresses init o s := by
  simp only [exportEffectiveAddresses, specEffectiveAddresses,
    parseAddressList_eq_filterMap]
  rw [ite_length_pos_eq, ite_length_zero_eq]
  by_cases ho : o = ""
  · subst ho
    norm_num
    rfl
  · simp [ho]

lemma export_spec {SMap : Type} (cc : ConsensusConfig SMap) (o a s : String) :
    Export cc o a s =
      if (exportEffectiveAddresses cc.InitNodesAddreses o s).length = 0 then
        .error (.validationError "List of default addresses is empty")
      else if (if a = "" then cc.Application.Name else a) = "" then
        .error (.validationError "Application name is empty. It is required")
      else .ok
        { Application := { Name := if a = "" then cc.Application.Name else a,
                           WebSite := cc.Application.WebSite,
                           Team := cc.Application.Team }
          Kind := cc.Kind
          CoinsForBlockMade := cc.CoinsForBlockMade
          Settings := cc.Settings
          AllowTableCreate := cc.AllowTableCreate
          AllowTableDrop := cc.AllowTableDrop
          AllowRowDelete := cc.AllowRowDelete
          TransactionCost := cc.TransactionCost
          UnmanagedTables := cc.UnmanagedTables
          TableRules := cc.TableRules
          InitNodesAddreses := exportEffectiveAddresses cc.InitNodesAddreses o s } := by
  simp only [Export, marshal]
  by_cases h1 : (exportEffectiveAddresses cc.InitNodesAddreses o s).length = 0
  · simp [h1]
  · by_cases h2 : a = ""
    · simp [h1, h2]
    · simp [h1, h2]

lemma effectiveAddresses_idem (init : List String) (o s : String) :
    exportEffectiveAddresses (exportEffectiveAddresses init o s) o s
      = exportEffectiveAddresses init o s := by
  unfold exportEffectiveAddresses
  set A := if o ≠ "" then parseAddressList (splitComma o) s else [] with hA
  by_cases h1 : A.length > 0
  · have h1' : ¬ A.length = 0 := by omega
    simp [h1, h1']
  · have hA0 : A = [] := List.length_eq_zero.mp (by omega)
    by_cases h2 : init = [] <;> by_cases h3 : s = "" <;>
      simp [h1, hA0, h2, h3]

/-- C1: `Export` resolves the address list exactly as described — split
on commas, skip empty entries, substitute selfAddress for own when
non-empty and drop it otherwise, replace the existing list when the
result is non-empty, and fall back to the singleton of selfAddress when
the list is still empty and selfAddress is not; on the concrete example
the resolved list is 203.0.113.5:9000 then 192.0.2.1:9000, in that
order. -/
theorem C1_export_address_resolution :
    (∀ (init : List String) (o s : String),
        exportEffectiveAddresses init o s = specEffectiveAddresses init o s)
    ∧ (∀ (SMap : Type) (cc : ConsensusConfig SMap) (o a s : String)
          (d : ConsensusDoc SMap), Export cc o a s = Except.ok d →
          d.InitNodesAddreses = specEffectiveAddresses cc.InitNodesAddreses o s)
    ∧ exportEffectiveAddresses [] "own,192.0.2.1:9000" "203.0.113.5:9000"
        = ["203.0.113.5:9000", "192.0.2.1:9000"] := by
  refine ⟨effectiveAddresses_eq, ?_, by decide⟩
  intro SMap cc o a s d h
  rw [export_spec] at h
  rw [← effectiveAddresses_eq]
  by_cases h1 : (exportEffectiveAddresses cc.InitNodesAddreses o s).length = 0
  · rw [if_pos h1] at h
    exact absurd h (by simp)
  · rw [if_neg h1] at h
    by_cases h2 : (if a = "" then cc.Application.Name else a) = ""
    · rw [if_pos h2] at h
      exact absurd h (by simp)
    · rw [if_neg h2] at h
      rw [← Except.ok.inj h]

/-- Witness for C1 at a concrete input: exporting `cfgMyChain` with the
example overrides succeeds with document `docMyChain`, whose address
list is the spec-resolved one. -/
theorem C1_witness :
    Export cfgMyChain "own,192.0.2.1:9000" "" "203.0.113.5:9000"
        = Except.ok docMyChain
    ∧ docMyChain.InitNodesAddreses
        = specEffectiveAddresses cfgMyChain.InitNodesAddreses
            "own,192.0.2.1:9000" "203.0.113.5:9000" :=
  ⟨by decide,
   C1_export_address_resolution.2.1 Unit cfgMyChain "own,192.0.2.1:9000" ""
     "203.0.113.5:9000" docMyChain (by decide)⟩

/-- C2 (amended): `Export` fails with the address validation error — and
produces no document — exactly when the effective address list (after
override parsing, own substitution and the selfAddress fallback) is
empty; the message of the error is the source text List of default
addresses is empty. -/
theorem C2_export_fails_iff_no_addresses :
    ∀ (SMap : Type) (cc : ConsensusConfig SMap) (o a s : String),
      Export cc o a s
          = Except.error (.validationError "List of default addresses is empty")
        ↔ exportEffectiveAddresses cc.InitNodesAddreses o s = [] := by
  intro SMap cc o a s
  rw [export_spec]
  by_cases h1 : (exportEffectiveAddresses cc.InitNodesAddreses o s).length = 0
  · rw [if_pos h1]
    simp [List.length_eq_zero.mp h1]
  · rw [if_neg h1]
    have h2 : exportEffectiveAddresses cc.InitNodesAddreses o s ≠ [] := by
      intro he
      exact h1 (by simp [he])
    simp only [h2, iff_false]
    by_cases h3 : (if a = "" then cc.Application.Name else a) = "" <;>
      simp [h3]

/-- Witness for C2 at the concrete input of the claim: with an empty
override string, an empty existing address list and an empty
self-address, `Export` fails with the validation error. -/
theorem C2_witness :
    Export cfgEmptyU "" "" ""
      = Except.error (.validationError "List of default addresses is empty") :=
  (C2_export_fails_iff_no_addresses Unit cfgEmptyU "" "" "").mpr (by decide)

/-- Counterexample for C2 as stated: at the claimed input the reason
string of the error is the source text List of default addresses is
empty, not the claimed text. -/
theorem C2_counterexample :
    Export cfgEmptyU "" "" ""
        = Except.error (.validationError "List of default addresses is empty")
    ∧ "List of default addresses is empty" ≠ "no initial addresses available." := by
  constructor
  · decide
  · decide

/-- C3 (amended): a non-empty appname overwrites the exported
application name; if the name is still empty afterwards, `Export` fails
with the name validation error (message Application name is empty. It is
required); this check runs only after the address check succeeds — an
empty effective address list always yields the address error; and
validation errors arise only from `Export` (also through `ExportToFile`,
unchanged) and only for these two conditions — `NewConfigFromFile` and
`UpdateConfig` never produce one. -/
theorem C3_application_name_validation :
    (∀ (SMap : Type) (cc : ConsensusConfig SMap) (o a s : String)
        (d : ConsensusDoc SMap), a ≠ "" → Export cc o a s = Except.ok d →
        d.Application.Name = a)
    ∧ (∀ (SMap : Type) (cc : ConsensusConfig SMap) (o a s : String),
        exportEffectiveAddresses cc.InitNodesAddreses o s ≠ [] → a = "" →
        cc.Application.Name = "" →
        Export cc o a s
          = Except.error (.validationError "Application name is empty. It is required"))
    ∧ (∀ (SMap : Type) (cc : ConsensusConfig SMap) (o a s : String),
        exportEffectiveAddresses cc.InitNodesAddreses o s = [] →
        Export cc o a s
          = Except.error (.validationError "List of default addresses is empty"))
    ∧ (∀ (SMap : Type) (cc : ConsensusConfig SMap) (o a s : String)
        (e : ConfigErr), Export cc o a s = Except.error e →
        e = .validationError "List of default addresses is empty"
        ∨ e = .validationError "Application name is empty. It is required")
    ∧ (∀ (SMap β : Type) (cc : ConsensusConfig SMap) (b : β) (m : String),
        UpdateConfig cc b ≠ Except.error (.validationError m))
    ∧ (∀ (SMap PoW : Type) (sdecode : SMap → PoW) (scomplete : PoW → PoW)
        (sencode : PoW → SMap) (rr : Except String (ConsensusDoc SMap))
        (path m : String),
        (NewConfigFromFile sdecode scomplete sencode rr path).1
          ≠ Except.error (.validationError m))
    ∧ (∀ (SMap : Type) (cc : ConsensusConfig SMap) (p o a s : String)
        (e : ConfigErr), ExportToFile cc p o a s = Except.error e →
        Export cc o a s = Except.error e) := by
  refine ⟨?_, ?_, ?_, ?_, ?_, ?_, ?_⟩
  · intro SMap cc o a s d ha h
    rw [export_spec] at h
    by_cases h1 : (exportEffectiveAddresses cc.InitNodesAddreses o s).length = 0
    · rw [if_pos h1] at h
      exact absurd h (by simp)
    · rw [if_neg h1] at h
      by_cases h2 : (if a = "" then cc.Application.Name else a) = ""
      · rw [if_pos h2] at h
        exact absurd h (by simp)
      · rw [if_neg h2] at h
        rw [← Except.ok.inj h]
        simp [ha]
  · intro SMap cc o a s hne ha hn
    rw [export_spec, if_neg (by simpa [List.length_eq_zero] using hne),
      if_pos (by simp [ha, hn])]
  · intro SMap cc o a s he
    rw [export_spec, if_pos (by simp [he])]
  · intro SMap cc o a s e h
    rw [export_spec] at h
    by_cases h1 : (exportEffectiveAddresses cc.InitNodesAddreses o s).length = 0
    · rw [if_pos h1] at h
      exact Or.inl (Except.error.inj h).symm
    · rw [if_neg h1] at h
      by_cases h2 : (if a = "" then cc.Application.Name else a) = ""
      · rw [if_pos h2] at h
        exact Or.inr (Except.error.inj h).symm
      · rw [if_neg h2] at h
        exact absurd h (by simp)
  · intro SMap β cc b m h
    unfold UpdateConfig at h
    by_cases hp : cc.state.filePath = ""
    · rw [if_pos hp] at h
      exact ConfigErr.noConfusion (Except.error.inj h)
    · rw [if_neg hp] at h
      exact Except.noConfusion h
  · intro SMap PoW sdecode scomplete sencode rr path m h
    cases rr with
    | error e =>
      exact ConfigErr.noConfusion (Except.error.inj h)
    | ok doc =>
      exact Except.noConfusion h
  · intro SMap cc p o a s e h
    unfold ExportToFile at h
    cases he : Export cc o a s with
    | error e2 =>
      rw [he] at h
      rw [← Except.error.inj h]
    | ok d =>
      rw [he] at h
      exact Except.noConfusion h

/-- Witness for C3 at concrete inputs: a non-empty appname lands in the
exported document, and a configuration with an address but no resolvable
name fails with the name validation error. -/
theorem C3_witness :
    (docMyChain.Application.Name = "MyChain")
    ∧ Export cfgNoNameU "" "" ""
        = Except.error (.validationError "Application name is empty. It is required") :=
  ⟨C3_application_name_validation.1 Unit
      { cfgMyChain with Application := { Name := "old", WebSite := "", Team := "" } }
      "own,192.0.2.1:9000" "MyChain" "203.0.113.5:9000" docMyChain
      (by decide) (by decide),
   C3_application_name_validation.2.1 Unit cfgNoNameU "" "" ""
      (by decide) rfl rfl⟩

/-- Counterexample for C3 as stated: the reason string of the name
validation error is the source text Application name is empty. It is
required, not the claimed text. -/
theorem C3_counterexample :
    Export cfgNoNameU "" "" ""
        = Except.error (.validationError "Application name is empty. It is required")
    ∧ "Application name is empty. It is required" ≠ "application name required." := by
  constructor
  · decide
  · decide

/-- C4: on a successfully parsed document, load back-fills a zero block
reward to 10 and an empty kind to proof-of-work, completes the settings
through the external completer whenever the kind is proof-of-work, marks
the result as non-default with the load path, and performs no write. -/
theorem C4_load_normalization :
    ∀ (SMap PoW : Type) (sdecode : SMap → PoW) (scomplete : PoW → PoW)
      (sencode : PoW → SMap) (doc : ConsensusDoc SMap) (path : String),
      ∃ c : ConsensusConfig SMap,
        NewConfigFromFile sdecode scomplete sencode (Except.ok doc) path
          = (Except.ok c, [])
        ∧ (doc.CoinsForBlockMade = 0 → c.CoinsForBlockMade = 10)
        ∧ (doc.Kind = "" → c.Kind = KindConseususPoW)
        ∧ (c.Kind = KindConseususPoW →
            c.Settings = sencode (scomplete (sdecode doc.Settings)))
        ∧ c.state.isDefault = false
        ∧ c.state.filePath = path := by
  intro SMap PoW sdecode scomplete sencode doc path
  simp only [NewConfigFromFile]
  refine ⟨_, rfl, ?_, ?_, ?_, ?_, ?_⟩ <;>
    by_cases h1 : doc.CoinsForBlockMade = 0 <;>
    by_cases h2 : doc.Kind = "" <;>
    by_cases h3 : doc.Kind = KindConseususPoW <;>
      simp_all [unmarshalDoc, KindConseususPoW]

/-- Witness for C4 at a concrete input: loading the all-empty document
back-fills reward 10 and the proof-of-work kind and records the load
path. -/
theorem C4_witness :
    NewConfigFromFile (fun _ : Unit => ()) (fun u => u) (fun _ => ())
        (Except.ok (marshal cfgEmptyU)) "a.json" = (Except.ok cfgLoadedU, [])
    ∧ cfgLoadedU.CoinsForBlockMade = 10
    ∧ cfgLoadedU.Kind = KindConseususPoW
    ∧ cfgLoadedU.state.isDefault = false
    ∧ cfgLoadedU.state.filePath = "a.json" := by
  obtain ⟨c, he, hr, hk, hs, hd, hp⟩ :=
    C4_load_normalization Unit Unit (fun _ => ()) (fun u => u) (fun _ => ())
      (marshal cfgEmptyU) "a.json"
  have hce : NewConfigFromFile (fun _ : Unit => ()) (fun u => u) (fun _ => ())
      (Except.ok (marshal cfgEmptyU)) "a.json" = (Except.ok cfgLoadedU, []) := by
    decide
  have hcc : c = cfgLoadedU :=
    Except.ok.inj (congrArg Prod.fst (he.symm.trans hce))
  exact ⟨hce, hcc ▸ hr (by decide), hcc ▸ hk (by decide), hcc ▸ hd, hcc ▸ hp⟩

/-- C5: the default factory yields proof-of-work kind, reward 10, all
three global permission flags set, empty rule, unmanaged and address
lists, a settings mapping completed from the empty partial value, and
default lifecycle state — without any filesystem access (it is a pure
value). -/
theorem C5_default_factory :
    ∀ (SMap PoW : Type) (scomplete : PoW → PoW) (sencode : PoW → SMap)
      (emptyPoW : PoW),
      (NewConfigDefault scomplete sencode emptyPoW
          : ConsensusConfig SMap).Kind = KindConseususPoW
      ∧ (NewConfigDefault scomplete sencode emptyPoW
          : ConsensusConfig SMap).CoinsForBlockMade = 10
      ∧ (NewConfigDefault scomplete sencode emptyPoW
          : ConsensusConfig SMap).AllowTableCreate = true
      ∧ (NewConfigDefault scomplete sencode emptyPoW
          : ConsensusConfig SMap).AllowTableDrop = true
      ∧ (NewConfigDefault scomplete sencode emptyPoW
          : ConsensusConfig SMap).AllowRowDelete = true
      ∧ (NewConfigDefault scomplete sencode emptyPoW
          : ConsensusConfig SMap).TableRules = []
      ∧ (NewConfigDefault scomplete sencode emptyPoW
          : ConsensusConfig SMap).UnmanagedTables = []
      ∧ (NewConfigDefault scomplete sencode emptyPoW
          : ConsensusConfig SMap).InitNodesAddreses = []
      ∧ (NewConfigDefault scomplete sencode emptyPoW
          : ConsensusConfig SMap).Settings = sencode (scomplete emptyPoW)
      ∧ (NewConfigDefault scomplete sencode emptyPoW
          : ConsensusConfig SMap).state.isDefault = true
      ∧ (NewConfigDefault scomplete sencode emptyPoW
          : ConsensusConfig SMap).state.filePath = "" := by
  intro SMap PoW scomplete sencode emptyPoW
  exact ⟨rfl, rfl, rfl, rfl, rfl, rfl, rfl, rfl, rfl, rfl, rfl⟩

/-- C6 (amended): for a document produced by a successful `Export` whose
block reward is non-zero, whose kind is non-empty, and whose settings
are a fixed point of the completion pipeline when the kind is
proof-of-work, loading the document back and re-exporting with the same
overrides succeeds and reproduces the document exactly. -/
theorem C6_roundtrip_stable :
    ∀ (SMap PoW : Type) (sdecode : SMap → PoW) (scomplete : PoW → PoW)
      (sencode : PoW → SMap) (cc : ConsensusConfig SMap)
      (o a s path : String) (d : ConsensusDoc SMap),
      Export cc o a s = Except.ok d →
      d.CoinsForBlockMade ≠ 0 →
      d.Kind ≠ "" →
      (d.Kind = KindConseususPoW →
        sencode (scomplete (sdecode d.Settings)) = d.Settings) →
      ∃ c : ConsensusConfig SMap,
        (NewConfigFromFile sdecode scomplete sencode (Except.ok d) path).1
          = Except.ok c
        ∧ Export c o a s = Except.ok d := by
  intro SMap PoW sdecode scomplete sencode cc o a s path d hexp hr hk hstable
  rw [export_spec] at hexp
  by_cases h1 : (exportEffectiveAddresses cc.InitNodesAddreses o s).length = 0
  · rw [if_pos h1] at hexp
    exact absurd hexp (by simp)
  · rw [if_neg h1] at hexp
    by_cases h2 : (if a = "" then cc.Application.Name else a) = ""
    · rw [if_pos h2] at hexp
      exact absurd hexp (by simp)
    · rw [if_neg h2] at hexp
      have hD := (Except.ok.inj hexp).symm
      subst hD
      refine ⟨{ Application := { Name := if a = "" then cc.Application.Name else a,
                                 WebSite := cc.Application.WebSite,
                                 Team := cc.Application.Team }
                Kind := cc.Kind
                CoinsForBlockMade := cc.CoinsForBlockMade
                Settings := cc.Settings
                AllowTableCreate := cc.AllowTableCreate
                AllowTableDrop := cc.AllowTableDrop
                AllowRowDelete := cc.AllowRowDelete
                TransactionCost := cc.TransactionCost
                UnmanagedTables := cc.UnmanagedTables
                TableRules := cc.TableRules
                InitNodesAddreses := exportEffectiveAddresses cc.InitNodesAddreses o s
                state := { isDefault := false, filePath := path } }, ?_, ?_⟩
      · simp only [ConsensusDoc.CoinsForBlockMade] at hr
        simp only [ConsensusDoc.Kind] at hk
        by_cases h3 : cc.Kind = KindConseususPoW
        · have hs := hstable h3
          simp only [ConsensusDoc.Settings] at hs
          simp [NewConfigFromFile, unmarshalDoc, hr, hk, h3, hs]
        · simp [NewConfigFromFile, unmarshalDoc, hr, hk, h3]
      · rw [export_spec]
        have hidem := effectiveAddresses_idem cc.InitNodesAddreses o s
        have hne : exportEffectiveAddresses cc.InitNodesAddreses o s ≠ [] :=
          fun he => h1 (by simp [he])
        by_cases ha : a = ""
        · simp [ha] at h2 ⊢
          simp [hidem, h1, h2, hne]
        · simp [hidem, h1, h2, ha, hne]

/-- Witness for C6 at a concrete input: a normalized exported document
reloads and re-exports to itself. -/
theorem C6_witness :
    (NewConfigFromFile (fun _ : Unit => ()) (fun u => u) (fun _ => ())
        (Except.ok (marshal cfgRoundU)) "config.json").1
      = Except.ok cfgRoundLoadedU
    ∧ Export cfgRoundLoadedU "" "" "" = Except.ok (marshal cfgRoundU) := by
  obtain ⟨c, hload, hexp⟩ :=
    C6_roundtrip_stable Unit Unit (fun _ => ()) (fun u => u) (fun _ => ())
      cfgRoundU "" "" "" "config.json" (marshal cfgRoundU)
      (by decide) (by decide) (by decide) (fun _ => rfl)
  have h2 : (NewConfigFromFile (fun _ : Unit => ()) (fun u => u) (fun _ => ())
      (Except.ok (marshal cfgRoundU)) "config.json").1
        = Except.ok cfgRoundLoadedU := by decide
  have hc : c = cfgRoundLoadedU := Except.ok.inj (hload.symm.trans h2)
  rw [hc] at hexp
  exact ⟨h2, hexp⟩

/-- Counterexample for C6 as stated: a successful export with block
reward 0 does not round-trip — load back-fills the reward to 10, so the
re-exported document differs from the original. -/
theorem C6_counterexample :
    Export cfgZeroRewardU "" "" "" = Except.ok (marshal cfgZeroRewardU)
    ∧ (NewConfigFromFile (fun _ : Unit => ()) (fun u => u) (fun _ => ())
        (Except.ok (marshal cfgZeroRewardU)) "config.json").1
      = Except.ok cfgZeroReloadedU
    ∧ Export cfgZeroReloadedU "" "" "" = Except.ok (marshal cfgZeroReloadedU)
    ∧ marshal cfgZeroReloadedU ≠ marshal cfgZeroRewardU := by
  exact ⟨by decide, by decide, by decide, by decide⟩

/-- C7: `Export` receives the configuration by value and never writes
through shared state, so the configuration of the caller is unchanged in
every field after the call, whether it succeeds or fails. -/
theorem C7_export_leaves_caller_unchanged :
    ∀ (SMap : Type) (cc : ConsensusConfig SMap) (o a s : String),
      (ExportCall cc o a s).2 = cc :=
  fun _ _ _ _ _ => rfl

/-- C8: the seed picker returns none exactly on an empty bootstrap list,
always returns the parse of the sole element of a one-element list, and
on any non-empty list returns the parse of some element. -/
theorem C8_random_initial_address :
    ∀ (SMap σ α : Type) (g : RandGen σ) (parseAddr : String → α) (now : Int)
      (st : σ) (cc : ConsensusConfig SMap),
      ((GetRandomInitialAddress g parseAddr now st cc).1 = none
        ↔ cc.InitNodesAddreses = [])
      ∧ (∀ x : String, cc.InitNodesAddreses = [x] →
          (GetRandomInitialAddress g parseAddr now st cc).1
            = some (parseAddr x))
      ∧ (cc.InitNodesAddreses ≠ [] →
          ∃ x ∈ cc.InitNodesAddreses,
            (GetRandomInitialAddress g parseAddr now st cc).1
              = some (parseAddr x)) := by
  intro SMap σ α g parseAddr now st cc
  refine ⟨?_, ?_, ?_⟩
  · unfold GetRandomInitialAddress
    by_cases h : cc.InitNodesAddreses.length = 0
    · simp [h, List.length_eq_zero.mp h]
    · simp only [dif_neg h]
      simp only [List.length_eq_zero] at h
      simp [h]
  · intro x hx
    unfold GetRandomInitialAddress
    have h : ¬ cc.InitNodesAddreses.length = 0 := by simp [hx]
    rw [dif_neg h]
    rcases hi : (g.intn (g.seed now) cc.InitNodesAddreses.length
        (Nat.pos_of_ne_zero h)).1 with ⟨iv, hlt⟩
    have hx1 : cc.InitNodesAddreses.length = 1 := by simp [hx]
    have hiv : iv = 0 := by omega
    subst hiv
    simp only [hi]
    congr 1
    exact congrArg parseAddr (by simpa using List.get_of_eq hx ⟨0, hlt⟩)
  · intro hne
    unfold GetRandomInitialAddress
    have h : ¬ cc.InitNodesAddreses.length = 0 := by
      simpa [List.length_eq_zero] using hne
    rw [dif_neg h]
    refine ⟨_, ?_, rfl⟩
    exact List.get_mem _ _ _

/-- Witness for C8 at a concrete input: on the one-element list the pick
is the parse of that element. -/
theorem C8_witness :
    (GetRandomInitialAddress gUnit (fun a => a) 0 () cfgRoundU).1
      = some "192.0.2.9:9000" :=
  (C8_random_initial_address Unit Unit String gUnit (fun a => a) 0 ()
    cfgRoundU).2.1 "192.0.2.9:9000" rfl

/-- C9: `UpdateConfig` fails with the configuration error exactly when
the lifecycle file path is empty (and then performs no write — the error
carries none); `SetConfigFilePath` changes only the file path; after
setting a non-empty path the same call succeeds and its single write
puts exactly the supplied bytes at that path. -/
theorem C9_update_config :
    ∀ (SMap β : Type) (cc : ConsensusConfig SMap) (b : β) (path : String)
      (fs : String → Option β),
      (UpdateConfig cc b
          = Except.error (.configurationError "COnfig file path missed. Can not save")
        ↔ cc.state.filePath = "")
      ∧ ((SetConfigFilePath cc path).state.filePath = path
          ∧ (SetConfigFilePath cc path).state.isDefault = cc.state.isDefault
          ∧ (SetConfigFilePath cc path).Application = cc.Application
          ∧ (SetConfigFilePath cc path).Kind = cc.Kind
          ∧ (SetConfigFilePath cc path).CoinsForBlockMade = cc.CoinsForBlockMade
          ∧ (SetConfigFilePath cc path).Settings = cc.Settings
          ∧ (SetConfigFilePath cc path).AllowTableCreate = cc.AllowTableCreate
          ∧ (SetConfigFilePath cc path).AllowTableDrop = cc.AllowTableDrop
          ∧ (SetConfigFilePath cc path).AllowRowDelete = cc.AllowRowDelete
          ∧ (SetConfigFilePath cc path).TransactionCost = cc.TransactionCost
          ∧ (SetConfigFilePath cc path).UnmanagedTables = cc.UnmanagedTables
          ∧ (SetConfigFilePath cc path).TableRules = cc.TableRules
          ∧ (SetConfigFilePath cc path).InitNodesAddreses = cc.InitNodesAddreses)
      ∧ (path ≠ "" →
          UpdateConfig (SetConfigFilePath cc path) b = Except.ok (path, b)
          ∧ applyWrite fs (path, b) path = some b) := by
  intro SMap β cc b path fs
  refine ⟨?_,
    ⟨rfl, rfl, rfl, rfl, rfl, rfl, rfl, rfl, rfl, rfl, rfl, rfl, rfl⟩, ?_⟩
  · unfold UpdateConfig
    by_cases hp : cc.state.filePath = ""
    · simp [hp]
    · simp [hp]
  · intro hp
    constructor
    · unfold UpdateConfig SetConfigFilePath
      simp [hp]
    · unfold applyWrite
      simp

/-- Witness for C9 at a concrete input: the pathless configuration
fails, and after setting the path cfg.json the bytes land at that
path. -/
theorem C9_witness :
    UpdateConfig cfgEmptyU "bytes"
        = Except.error (.configurationError "COnfig file path missed. Can not save")
    ∧ UpdateConfig (SetConfigFilePath cfgEmptyU "cfg.json") "bytes"
        = Except.ok ("cfg.json", "bytes")
    ∧ applyWrite (fun _ => (none : Option String)) ("cfg.json", "bytes") "cfg.json"
        = some "bytes" := by
  have h := C9_update_config Unit String cfgEmptyU "bytes" "cfg.json" fun _ => none
  exact ⟨h.1.mpr rfl, (h.2.2 (by decide)).1, (h.2.2 (by decide)).2⟩

/-- C10: because every call reseeds the generator from the wall-clock
second before drawing, the picked address is a deterministic function of
the address list and that second — two calls at the same second agree,
whatever generator state they start from. -/
theorem C10_reseed_determinism :
    ∀ (SMap σ α : Type) (g : RandGen σ) (parseAddr : String → α) (now : Int)
      (st1 st2 : σ) (cc : ConsensusConfig SMap),
      (GetRandomInitialAddress g parseAddr now st1 cc).1
        = (GetRandomInitialAddress g parseAddr now st2 cc).1 := by
  intro SMap σ α g parseAddr now st1 st2 cc
  unfold GetRandomInitialAddress
  by_cases h : cc.InitNodesAddreses.length = 0 <;> simp [h]

end OurSQL
